import Mathlib

/-!
Shallow embedding of `test_flow.py` and `generate_summary.py` from the
b2b-order-sync repository, with proofs about the behaviour of the order-flow
orchestrator, its polling retry policy, the timing tracker, the batch runners
and the offline summary aggregator.

Modelling conventions:

- Wall-clock instants are modelled by a `Nat` tick counter: each call to
  `datetime.now()` reads the current tick and advances the counter, so ticks
  are strictly monotone.  Durations are differences of ticks (`Int` in the
  tracker, rationals in the aggregator, standing in for Python floats).
- Each HTTP gateway call is modelled by its outcome, supplied by an
  environment record: `Except String α` is "returned `α` or raised an
  exception with the given message" (`requests` raises on network failures,
  and `raise_for_status` raises exactly for HTTP statuses 400-599).
- JSON documents are modelled by the inductive `JVal`; Python `dict`s are
  association lists that preserve insertion order.
-/

deriving instance DecidableEq for Except

namespace B2BSync

/-- A response observed by one attempt of `BCTestFlow.poll_b2b_order`: either
an HTTP response with a status code and decoded body (abstracted to the B2B
order payload it carries), or a network-level error raised by `requests.get`
(carrying the exception message). -/
inductive PollResponse where
  | http (status : Nat) (body : Nat)
  | netError (msg : String)
deriving DecidableEq, Repr

/-- Observable outcome of one `poll_b2b_order` call: the value returned or the
exception raised (`Except.ok none` is the case where control falls off the end
of the `for` loop and Python implicitly returns `None`), the number of loop
iterations (attempts) performed, and the number of `time.sleep(delay_seconds)`
calls made (each sleeping `delay_seconds` seconds). -/
structure PollRun where
  result : Except String (Option Nat)
  attempts : Nat
  sleeps : Nat
deriving DecidableEq, Repr

/-- Message of the exception `raise Exception(f"B2B order {order_id} not found
after {max_retries} attempts")`. -/
def notFoundMsg (order_id max_retries : Nat) : String :=
  "B2B order " ++ toString order_id ++ " not found after " ++
    toString max_retries ++ " attempts"

/-- Message of the `requests.exceptions.HTTPError` raised by
`response.raise_for_status()` on an error status (the exact rendering is
irrelevant; only which status raises matters). -/
def httpErrMsg (status : Nat) : String :=
  "HTTP error " ++ toString status

/-- The retry loop of `poll_b2b_order`, starting at iteration `attempt` with
`fuel` iterations of `range(max_retries)` remaining (every call from
`poll_b2b_order` maintains `attempt + fuel = max_retries`).  Dispatch per the
source: status 200 returns the body; status 404 sleeps and retries while
`attempt < max_retries - 1` and otherwise raises the not-found exception;
statuses 400-599 make `raise_for_status` raise a `RequestException`, which the
handler catches — sleep and retry on non-final attempts, re-raise on the final
one; any other status passes `raise_for_status` silently so the loop moves on
with no sleep; a network error from `requests.get` is caught by the same
handler as an HTTP error.  When the loop exhausts, the function returns
`None`. -/
def pollGo (order_id : Nat) (responses : Nat → PollResponse) (max_retries : Nat) :
    Nat → Nat → PollRun
  | _, 0 => ⟨.ok none, 0, 0⟩
  | attempt, fuel + 1 =>
    match responses attempt with
    | .http status body =>
      if status = 200 then ⟨.ok (some body), 1, 0⟩
      else if status = 404 then
        if attempt < max_retries - 1 then
          let t := pollGo order_id responses max_retries (attempt + 1) fuel
          ⟨t.result, t.attempts + 1, t.sleeps + 1⟩
        else ⟨.error (notFoundMsg order_id max_retries), 1, 0⟩
      else if 400 ≤ status ∧ status < 600 then
        if attempt < max_retries - 1 then
          let t := pollGo order_id responses max_retries (attempt + 1) fuel
          ⟨t.result, t.attempts + 1, t.sleeps + 1⟩
        else ⟨.error (httpErrMsg status), 1, 0⟩
      else
        let t := pollGo order_id responses max_retries (attempt + 1) fuel
        ⟨t.result, t.attempts + 1, t.sleeps⟩
    | .netError msg =>
      if attempt < max_retries - 1 then
        let t := pollGo order_id responses max_retries (attempt + 1) fuel
        ⟨t.result, t.attempts + 1, t.sleeps + 1⟩
      else ⟨.error msg, 1, 0⟩

/-- `BCTestFlow.poll_b2b_order(order_id, max_retries, delay_seconds)`, given
the stream of per-attempt responses of the B2B API.  `delay_seconds` scales
each counted sleep but does not influence control flow, so the model keeps it
as an (unused) parameter and reports the count of sleeps. -/
def poll_b2b_order (order_id : Nat) (responses : Nat → PollResponse)
    (max_retries _delay_seconds : Nat) : PollRun :=
  pollGo order_id responses max_retries 0 max_retries

/-- Status test used by the claims: a 404 (not-found-yet) HTTP response. -/
def is404 : PollResponse → Bool
  | .http s _ => s == 404
  | .netError _ => false

/-- A transport-level failure as the code treats it: a network error, or an
HTTP status that makes `raise_for_status` raise (400-599) other than 404. -/
def isTransportFailB : PollResponse → Bool
  | .netError _ => true
  | .http s _ => decide ((400 ≤ s ∧ s < 600) ∧ s ≠ 404)

/-- A retryable attempt outcome: not-found or transport failure; both consume
one attempt and one sleep (when attempts remain). -/
def retryableB (r : PollResponse) : Bool :=
  is404 r || isTransportFailB r

/-- A response that the loop silently skips: the status is neither 200 nor 404
and does not make `raise_for_status` raise. -/
def fallsThroughB : PollResponse → Bool
  | .http s _ => decide (s ≠ 200 ∧ s ≠ 404 ∧ ¬(400 ≤ s ∧ s < 600))
  | .netError _ => false

/-- A 2xx status other than 200, the special case of fall-through named by the
implicit claim about `poll_b2b_order`. -/
def is2xxNot200 : PollResponse → Bool
  | .http s _ => decide (201 ≤ s ∧ s ≤ 299)
  | .netError _ => false

/-- The message of the exception raised when the final attempt fails:
the not-found exception for a 404, the re-raised `RequestException`
otherwise. -/
def exhaustMsg (r : PollResponse) (order_id max_retries : Nat) : String :=
  match r with
  | .netError m => m
  | .http s _ => if s = 404 then notFoundMsg order_id max_retries else httpErrMsg s

/-! ## `TimingTracker` (test_flow.py) -/

/-- The per-step dict stored in `TimingTracker.steps[step_name]`: keys
`start`, `end` (here `stop`, since `end` is reserved) and `duration`.  `stop`
and `duration` are `None` until `end_step` runs for the step. -/
structure StepTiming where
  start : Nat
  stop : Option Nat
  duration : Option Int
deriving DecidableEq, Repr

/-- Python dict assignment `d[k] = v`: replaces the value in place when the
key exists (keeping its position), appends otherwise. -/
def dictSet {α : Type} (k : String) (v : α) : List (String × α) → List (String × α)
  | [] => [(k, v)]
  | (k2, v2) :: rest => if k2 = k then (k, v) :: rest else (k2, v2) :: dictSet k v rest

/-- Python dict lookup `d.get(k)` / `k in d`. -/
def dictFind {α : Type} (k : String) : List (String × α) → Option α
  | [] => none
  | (k2, v) :: rest => if k2 = k then some v else dictFind k rest

/-- `TimingTracker`: per-step timings (insertion-ordered dict), flow start and
end instants, and the order id used for report naming. -/
structure TimingTracker where
  steps : List (String × StepTiming)
  start_time : Option Nat
  end_time : Option Nat
  order_id : Option Nat
deriving DecidableEq, Repr

def TimingTracker.init : TimingTracker := ⟨[], none, none, none⟩

/-- `set_order_id`. -/
def TimingTracker.set_order_id (t : TimingTracker) (oid : Nat) : TimingTracker :=
  { t with order_id := some oid }

/-- `start_step`: overwrites `steps[step_name]` with a fresh record whose
`end` and `duration` are `None`.  No other entry is touched. -/
def TimingTracker.start_step (t : TimingTracker) (step_name : String) (now : Nat) :
    TimingTracker :=
  { t with steps := dictSet step_name ⟨now, none, none⟩ t.steps }

/-- `end_step`: if the step exists, records its end instant and duration;
otherwise does nothing. -/
def TimingTracker.end_step (t : TimingTracker) (step_name : String) (now : Nat) :
    TimingTracker :=
  match dictFind step_name t.steps with
  | none => t
  | some st =>
      { t with steps :=
          dictSet step_name ⟨st.start, some now, some ((now : Int) - (st.start : Int))⟩ t.steps }

/-- `start_flow`. -/
def TimingTracker.start_flow (t : TimingTracker) (now : Nat) : TimingTracker :=
  { t with start_time := some now }

/-- `end_flow`: records the flow end instant only.  It does not close any
still-open step. -/
def TimingTracker.end_flow (t : TimingTracker) (now : Nat) : TimingTracker :=
  { t with end_time := some now }

/-- The summary dict built by `generate_summary` (the JSON encoder below
renders instants as strings, mirroring `isoformat()`). -/
structure Summary where
  flow_start : Nat
  flow_end : Nat
  total_duration_seconds : Int
  order_id : Option Nat
  steps : List (String × StepTiming)
deriving DecidableEq, Repr

/-- `generate_summary`: `none` models the empty dict returned when flow timing
is incomplete. -/
def TimingTracker.generate_summary (t : TimingTracker) : Option Summary :=
  match t.start_time, t.end_time with
  | some st, some en =>
      some { flow_start := st, flow_end := en,
             total_duration_seconds := (en : Int) - (st : Int),
             order_id := t.order_id, steps := t.steps }
  | _, _ => none

/-- Report filename `order_{order_id}_{timestamp}.json` (a missing order id
renders as the literal text "None", exactly as Python formats it). -/
def reportFilename (order_id : Option Nat) (start_time : Nat) : String :=
  "order_" ++ (match order_id with | some n => toString n | none => "None") ++
    "_" ++ toString start_time ++ ".json"

/-- `save_report`: the (filename, report) pair written to disk, or `none` when
flow timing is incomplete and the method returns early without writing. -/
def TimingTracker.save_report (t : TimingTracker) : Option (String × Summary) :=
  match t.start_time, t.end_time with
  | some st, some _ => t.generate_summary.map (fun s => (reportFilename t.order_id st, s))
  | _, _ => none

/-! ## JSON values and the persisted report layout -/

/-- JSON documents, as read back by `json.load` in `generate_summary.py`.
Python dicts keep insertion order, hence the association list. -/
inductive JVal where
  | num (q : ℚ)
  | str (s : String)
  | boolean (b : Bool)
  | null
  | obj (fields : List (String × JVal))

/-- JSON encoding of one step record inside a persisted report, with the keys
written by `generate_summary`: `start`, `end`, `duration_seconds`. -/
def StepTiming.toJson (st : StepTiming) : JVal :=
  .obj [("start", .str (toString st.start)),
        ("end", match st.stop with | some e => .str (toString e) | none => .null),
        ("duration_seconds", match st.duration with | some d => .num (d : ℚ) | none => .null)]

/-- JSON layout of a persisted report file, with the keys written by
`generate_summary` / `save_report`: `flow_start`, `flow_end`,
`total_duration_seconds`, `order_id`, `steps`. -/
def Summary.toJson (s : Summary) : JVal :=
  .obj [("flow_start", .str (toString s.flow_start)),
        ("flow_end", .str (toString s.flow_end)),
        ("total_duration_seconds", .num ((s.total_duration_seconds : ℚ))),
        ("order_id", match s.order_id with | some n => .num ((n : ℚ)) | none => .null),
        ("steps", .obj (s.steps.map (fun p => (p.1, StepTiming.toJson p.2))))]

/-! ## `TimingSummary` (generate_summary.py) -/

/-- Python `data.get(k, dflt)`: `none` models the `AttributeError` raised when
`data` is not a dict. -/
def pyGet (j : JVal) (k : String) (dflt : JVal) : Option JVal :=
  match j with
  | .obj fields => some ((dictFind k fields).getD dflt)
  | _ => none

/-- Python `float(v)` on a JSON value: numbers and booleans convert; `None`,
dicts and lists raise (`none`).  (Conversion of numeric strings is not
modelled; no report writer emits them.) -/
def floatOfJ : JVal → Option ℚ
  | .num q => some q
  | .boolean b => some (if b then 1 else 0)
  | _ => none

/-- Python truthiness of a JSON value. -/
def truthyJ : JVal → Bool
  | .boolean b => b
  | .num q => decide (q ≠ 0)
  | .str s => !s.isEmpty
  | .null => false
  | .obj fields => !fields.isEmpty

def digitVal (c : Char) : Option Nat :=
  if c = '0' then some 0 else if c = '1' then some 1 else if c = '2' then some 2
  else if c = '3' then some 3 else if c = '4' then some 4 else if c = '5' then some 5
  else if c = '6' then some 6 else if c = '7' then some 7 else if c = '8' then some 8
  else if c = '9' then some 9 else none

def parseDigits : List Char → Nat → Option Nat
  | [], acc => some acc
  | c :: cs, acc =>
      match digitVal c with
      | some d => parseDigits cs (acc * 10 + d)
      | none => none

/-- Parse the instant string the report writer emits back into a tick; any
other string fails. -/
def parseTick (s : String) : Option Nat :=
  match s.data with
  | [] => none
  | l => parseDigits l 0

/-- `datetime.fromisoformat(v).timestamp()`: succeeds exactly on the instant
strings the report writer produces (a tick rendered by `toString`); a
non-string or unparseable value raises. -/
def isoTimestamp : JVal → Option Nat
  | .str s => parseTick s
  | _ => none

def startsWithChars : List Char → List Char → Bool
  | [], _ => true
  | _ :: _, [] => false
  | p :: ps, c :: cs => p == c && startsWithChars ps cs

def containsChars (needle : List Char) : List Char → Bool
  | [] => startsWithChars needle []
  | c :: cs => startsWithChars needle (c :: cs) || containsChars needle cs

/-- Python `sub in s` on strings. -/
def strContains (s sub : String) : Bool :=
  containsChars sub.data s.data

/-- `load_timing_data` over a directory's `order_*.json` files, each given as
(filename, parsed JSON, with `none` for an unreadable or invalid file).
Files whose name contains "None" are skipped; files that fail to parse are
logged and skipped; every other file's JSON lands in `timing_data` (the
append happens before the timestamp bookkeeping of the batch metrics, so the
entry survives even when that bookkeeping raises). -/
def load_timing_data (files : List (String × Option JVal)) : List JVal :=
  files.filterMap (fun f => if strContains f.1 "None" then none else f.2)

/-- `sum(1 for data in self.timing_data if data.get("success", True))`;
`none` models the `AttributeError` on a non-dict entry. -/
def calcSuccessCount : List JVal → Option Nat
  | [] => some 0
  | d :: rest => do
      let v ← pyGet d "success" (.boolean true)
      let n ← calcSuccessCount rest
      pure ((if truthyJ v then 1 else 0) + n)

/-- `[float(data.get("total_duration", 0)) for data in self.timing_data]`.
Note the key: the aggregator reads `total_duration`, not the
`total_duration_seconds` the report writer emits. -/
def calcDurations : List JVal → Option (List ℚ)
  | [] => some []
  | d :: rest => do
      let v ← pyGet d "total_duration" (.num 0)
      let q ← floatOfJ v
      let qs ← calcDurations rest
      pure (q :: qs)

/-- Per-step aggregate of the summary's `step_metrics[step_name]`.
`min_duration` starts at `float('inf')`, modelled as `none`. -/
structure StepAgg where
  total_duration : ℚ
  average_duration : ℚ
  min_duration : Option ℚ
  max_duration : ℚ
  count : Nat
deriving DecidableEq, Repr

def stepAggInit : StepAgg := ⟨0, 0, none, 0, 0⟩

/-- One update of a step's aggregate with one observed duration. -/
def bumpAgg (a : StepAgg) (dur : ℚ) : StepAgg :=
  { total_duration := a.total_duration + dur,
    average_duration := a.average_duration,
    min_duration := some (match a.min_duration with | none => dur | some m => min m dur),
    max_duration := max a.max_duration dur,
    count := a.count + 1 }

/-- `defaultdict` update `step_metrics[step_name]` preserving insertion
order. -/
def upsertAgg : List (String × StepAgg) → String → ℚ → List (String × StepAgg)
  | [], name, dur => [(name, bumpAgg stepAggInit dur)]
  | (k, a) :: rest, name, dur =>
      if k = name then (k, bumpAgg a dur) :: rest else (k, a) :: upsertAgg rest name dur

/-- Inner loop over one report's `steps` items: reads each step's `duration`
key (the writer emits `duration_seconds`), defaulting to 0. -/
def foldSteps (acc : List (String × StepAgg)) : List (String × JVal) →
    Option (List (String × StepAgg))
  | [] => some acc
  | (name, stepJ) :: rest => do
      let v ← pyGet stepJ "duration" (.num 0)
      let dur ← floatOfJ v
      foldSteps (upsertAgg acc name dur) rest

/-- Outer loop of the step-metrics pass: `data.get("steps", {})` then iterate
its items (a non-dict `steps` value raises). -/
def calcStepAggs (acc : List (String × StepAgg)) : List JVal →
    Option (List (String × StepAgg))
  | [] => some acc
  | d :: rest => do
      let stepsV ← pyGet d "steps" (.obj [])
      let fields ← (match stepsV with | .obj f => some f | _ => none)
      let acc2 ← foldSteps acc fields
      calcStepAggs acc2 rest

/-- Final pass computing each step's `average_duration`. -/
def finishAggs (l : List (String × StepAgg)) : List (String × StepAgg) :=
  l.map (fun p =>
    (p.1, if 0 < p.2.count
      then { p.2 with average_duration := p.2.total_duration / (p.2.count : ℚ) }
      else p.2))

/-- The sort key pass `sorted(self.timing_data, key=...fromisoformat(x["flow_start"]))`:
only the potential exceptions matter to the metrics (a missing or unparseable
`flow_start` crashes `calculate_metrics`). -/
def calcSortKeys : List JVal → Option (List Nat)
  | [] => some []
  | d :: rest => do
      let v ← (match d with | .obj f => dictFind "flow_start" f | _ => none)
      let t ← isoTimestamp v
      let ts ← calcSortKeys rest
      pure (t :: ts)

def minListQ : List ℚ → ℚ
  | [] => 0
  | x :: xs => xs.foldl min x

def maxListQ : List ℚ → ℚ
  | [] => 0
  | x :: xs => xs.foldl max x

/-- The overall metrics record assembled by `calculate_metrics`. -/
structure Metrics where
  total_orders : Nat
  successful_orders : Nat
  failed_orders : Nat
  total_duration : ℚ
  average_duration : ℚ
  min_duration : ℚ
  max_duration : ℚ
  step_metrics : List (String × StepAgg)
deriving DecidableEq, Repr

/-- `TimingSummary.calculate_metrics` over the loaded `timing_data`.  Returns
`none` when `timing_data` is empty (Python returns leaving the zero-valued
defaults in place) and when any of the passes raises an uncaught exception. -/
def calculate_metrics (data : List JVal) : Option Metrics :=
  if data.isEmpty then none
  else do
    let succ ← calcSuccessCount data
    let durations ← calcDurations data
    let aggs ← calcStepAggs [] data
    let _ ← calcSortKeys data
    pure { total_orders := data.length,
           successful_orders := succ,
           failed_orders := data.length - succ,
           total_duration := durations.sum,
           average_duration := durations.sum / (durations.length : ℚ),
           min_duration := minListQ durations,
           max_duration := maxListQ durations,
           step_metrics := finishAggs aggs }

/-- The value `float(data.get("total_duration", 0))` reads from one loaded
report when it does not raise. -/
def readTotalDuration (d : JVal) : ℚ :=
  ((pyGet d "total_duration" (.num 0)).bind floatOfJ).getD 0

/-! ## Gateways and the orchestrator `process_single_order` -/

/-- One edge/node of the GraphQL `allOrders` response, reduced to the fields
`verify_storefront_order` extracts. -/
structure Edge where
  createdAt : String
  updatedAt : String
  companyName : String
deriving DecidableEq, Repr

/-- The dict `verify_storefront_order` returns: `success`, `message`, `data`
(`data` carries `createdAt`, `updatedAt`, `companyName` when found). -/
structure VerifyPayload where
  success : Bool
  message : String
  data : Option (String × String × String)
deriving DecidableEq, Repr

/-- `BCTestFlow.verify_storefront_order`, given whether
`B2B_STOREFRONT_TOKEN` is set and the outcome of the GraphQL POST (the edge
list of `data.allOrders.edges`, or a raised transport error).  Zero edges is
the deliberate soft miss: it returns `success := false` instead of
raising. -/
def verify_storefront_order (token_present : Bool)
    (response : Except String (List Edge)) : Except String VerifyPayload :=
  if token_present = false then
    .error "B2B_STOREFRONT_TOKEN environment variable is not set"
  else
    match response with
    | .error m => .error m
    | .ok [] => .ok ⟨false, "Order not found in B2B Storefront API", none⟩
    | .ok (e :: _) =>
        .ok ⟨true, "Order found in B2B Storefront API",
             some (e.createdAt, e.updatedAt, e.companyName)⟩

/-- The mock ERP response of `send_to_erp`. -/
structure ErpResponse where
  poNumber : String
  extraField1 : String
deriving DecidableEq, Repr

/-- Message of the `AttributeError` raised when `send_to_erp` receives `None`
(the log line evaluates `b2b_order.get(...)` on `None`). -/
def attributeErrMsg : String :=
  "AttributeError: NoneType object has no attribute get"

/-- `BCTestFlow.send_to_erp`: always succeeds on a real B2B order (building a
PO number from the order id and the current time), raises `AttributeError`
when handed `None`. -/
def send_to_erp (b2b_order : Option Nat) (now : Nat) : Except String ErpResponse :=
  match b2b_order with
  | none => .error attributeErrMsg
  | some oid => .ok ⟨"PO-" ++ toString oid ++ "-" ++ toString now, "ERP_PROCESSED"⟩

/-- Outcomes of every gateway call one `process_single_order` run makes, i.e.
the behaviour of the external commerce/B2B APIs towards this run.  `Except`
values are "returned this" / "raised this"; `poll` is the per-attempt
response stream of the B2B order endpoint.  Returned payloads are reduced to
the identifiers the orchestrator actually extracts. -/
structure Env where
  create_cart : Except String Nat
  get_cart : Except String Nat
  post_consignments : Except String (Nat × Nat)
  update_shipping_option : Except String Unit
  add_billing_address : Except String Unit
  create_order : Except String Nat
  update_order_status : Except String Unit
  get_order_details : Except String Nat
  create_b2b_order : Except String Nat
  poll : Nat → PollResponse
  update_b2b_order : Except String Unit
  token_present : Bool
  verification : Except String (List Edge)

/-- The `--b2b-order` strategy: `default` (manual B2B order creation) or `alt`
(polling). -/
inductive B2BMode where
  | default
  | alt
deriving DecidableEq, Repr

/-- State threaded through one `process_single_order` run: the `now` tick
counter, the run's `TimingTracker`, the report files written so far, and two
observation points (the argument handed to `send_to_erp`, and the local
`verification_result`). -/
structure OrchState where
  clock : Nat
  tracker : TimingTracker
  saved : List (String × Summary)
  erpInput : Option (Option Nat)
  verifyPayload : Option VerifyPayload
deriving DecidableEq, Repr

/-- `timing.start_step(name)` at the current tick. -/
def stepStart (name : String) (s : OrchState) : OrchState :=
  { s with clock := s.clock + 1, tracker := s.tracker.start_step name s.clock }

/-- `timing.end_step(name)` at the current tick. -/
def stepEnd (name : String) (s : OrchState) : OrchState :=
  { s with clock := s.clock + 1, tracker := s.tracker.end_step name s.clock }

/-- One `start_step / gateway call / end_step` block of
`process_single_order`: the step starts, the call either raises (the step
stays open and the exception propagates) or returns and the step ends before
the continuation runs. -/
def tryStep {α β : Type} (name : String) (act : Except String α)
    (k : α → OrchState → Except String β × OrchState) (s : OrchState) :
    Except String β × OrchState :=
  let s1 := stepStart name s
  match act with
  | .error m => (.error m, s1)
  | .ok a => k a (stepEnd name s1)

/-- The `esl_retrieval` branch: `default` fetches the order details (for the
customer id) then creates the B2B order; `alt` polls.  Only polling can
produce `none` (the fall-off-the-loop `None`). -/
def eslAct (env : Env) (mode : B2BMode) (order_id max_retries delay : Nat) :
    Except String (Option Nat) :=
  match mode with
  | .default => env.get_order_details.bind fun _cust => env.create_b2b_order.map some
  | .alt => (poll_b2b_order order_id env.poll max_retries delay).result

/-- `timing.save_report(reports_dir)`: appends the written file when the
tracker has complete flow timing. -/
def saveReportS (s : OrchState) : OrchState :=
  match s.tracker.save_report with
  | some file => { s with saved := s.saved ++ [file] }
  | none => s

/-- Tail of the run from the `storefront_verification` step: verify, record
the local `verification_result`, `end_flow`, `generate_summary`,
`save_report`, and return the order id and summary. -/
def verifyTail (env : Env) (orderId : Nat) : Unit → OrchState →
    Except String (Nat × Option Summary) × OrchState :=
  fun _ =>
  tryStep "storefront_verification"
    (verify_storefront_order env.token_present env.verification)
    (fun vr => fun s =>
      let s2 : OrchState := { s with verifyPayload := some vr }
      let s3 : OrchState := { s2 with clock := s2.clock + 1,
                                      tracker := s2.tracker.end_flow s2.clock }
      (.ok (orderId, s3.tracker.generate_summary), saveReportS s3))

/-- Tail of the run from the `erp_processing` step: the step starts, the
argument handed to `send_to_erp` is recorded, `send_to_erp` either raises
(leaving the step open) or returns, then `update_b2b_order` and the
verification tail follow. -/
def erpTail (env : Env) (orderId : Nat) (b2b : Option Nat) (s : OrchState) :
    Except String (Nat × Option Summary) × OrchState :=
  let sIn : OrchState := { s with erpInput := some b2b }
  let s1 := stepStart "erp_processing" sIn
  match send_to_erp b2b s1.clock with
  | .error m => (.error m, s1)
  | .ok _erp =>
      tryStep "update_b2b_order" env.update_b2b_order (verifyTail env orderId)
        (stepEnd "erp_processing" s1)

/-- Tail of the run once `create_order` returned `orderId`: `set_order_id`,
`update_order_status`, `esl_retrieval` (strategy branch) and the ERP tail.
(`set_order_id` runs just before `create_order`'s `end_step` in the source;
the two commute since it touches neither clock nor steps.) -/
def orderTail (env : Env) (mode : B2BMode) (max_retries delay : Nat)
    (orderId : Nat) (s : OrchState) :
    Except String (Nat × Option Summary) × OrchState :=
  let s2 : OrchState := { s with tracker := s.tracker.set_order_id orderId }
  tryStep "update_order_status" env.update_order_status (fun _ =>
    tryStep "esl_retrieval" (eslAct env mode orderId max_retries delay)
      (erpTail env orderId)) s2

/-- The `try` block of `process_single_order`: the fixed step sequence,
stopping at the first raised exception.  On success it ends the flow,
generates the summary, saves the report and returns the order id and
summary. -/
def runBody (env : Env) (mode : B2BMode) (max_retries delay : Nat) (s : OrchState) :
    Except String (Nat × Option Summary) × OrchState :=
  tryStep "create_cart" env.create_cart (fun _cartId =>
  tryStep "add_shipping_address" (env.get_cart.bind fun _li => env.post_consignments)
    (fun _cons =>
  tryStep "update_shipping_option" env.update_shipping_option (fun _ =>
  tryStep "add_billing_address" env.add_billing_address (fun _ =>
  tryStep "create_order" env.create_order
    (orderTail env mode max_retries delay))))) s

/-- The dict returned by `process_single_order`: `{'success': True,
'order_id': ..., 'summary': ...}` on the happy path, `{'success': False,
'error': str(e)}` when the `except` handler runs.  Fields absent from the
respective dict are `none`. -/
structure RunResult where
  success : Bool
  order_id : Option Nat
  summary : Option Summary
  error : Option String
deriving DecidableEq, Repr

/-- `process_single_order`: runs the step sequence and converts the outcome
at the orchestrator boundary.  Any exception raised by a step is caught
here and becomes `{'success': False, 'error': str(e)}` — the handler returns
without calling `end_flow` or `save_report`. -/
def process_single_order (env : Env) (mode : B2BMode) (max_retries delay : Nat)
    (s0 : OrchState) : RunResult × OrchState :=
  match runBody env mode max_retries delay s0 with
  | (.ok (oid, sum), s) => (⟨true, some oid, sum, none⟩, s)
  | (.error m, s) => (⟨false, none, none, some m⟩, s)

/-- JSON rendering of the dict `process_single_order` returns (used to state
what is and is not embedded in the run's result). -/
def RunResult.toJson (r : RunResult) : JVal :=
  match r.error with
  | some m => .obj [("success", .boolean r.success), ("error", .str m)]
  | none =>
      .obj [("success", .boolean r.success),
            ("order_id", match r.order_id with | some n => .num ((n : ℚ)) | none => .null),
            ("summary", match r.summary with | some s => s.toJson | none => .obj [])]

def isJFalse : JVal → Bool
  | .boolean false => true
  | _ => false

mutual

/-- Whether a JSON document anywhere contains a key "success" mapped to
`false` — the shape of the soft verification-miss payload. -/
def jsonHasSuccessFalse : JVal → Bool
  | .obj fields => fieldsHaveSuccessFalse fields
  | _ => false

def fieldsHaveSuccessFalse : List (String × JVal) → Bool
  | [] => false
  | (k, v) :: rest =>
      (k == "success" && isJFalse v) || jsonHasSuccessFalse v || fieldsHaveSuccessFalse rest

end

/-! ## Batch runners -/

/-- Fresh per-order state as the batch runners build it: a new
`TimingTracker` with `start_flow()` recorded at the current tick, an empty
run-local view of written reports and untouched observation points. -/
def freshOrch (clock : Nat) : OrchState :=
  ⟨clock + 1, TimingTracker.init.start_flow clock, [], none, none⟩

/-- Result of `process_orders_sequential`: the collected per-run results, the
final tick and the number of inter-order `asyncio.sleep(delay_seconds)`
calls. -/
structure SeqOut where
  results : List RunResult
  clock : Nat
  sleeps : Nat
deriving DecidableEq, Repr

/-- The loop of `process_orders_sequential`, at order index `i` with `rem`
orders left (`i + rem = num_orders` throughout): fresh tracker, `start_flow`,
run the order, append the result, and sleep `delay_seconds` unless this was
the last order (`i < num_orders - 1`, i.e. `0 < rem - 1 + 1` left after this
one). -/
def seqGo (envs : Nat → Env) (mode : B2BMode) (max_retries delay : Nat) :
    Nat → Nat → Nat → SeqOut
  | _i, 0, clock => ⟨[], clock, 0⟩
  | i, rem + 1, clock =>
      let pr := process_single_order (envs i) mode max_retries delay (freshOrch clock)
      let rest := seqGo envs mode max_retries delay (i + 1) rem pr.2.clock
      ⟨pr.1 :: rest.results, rest.clock, rest.sleeps + (if 0 < rem then 1 else 0)⟩

/-- `process_orders_sequential(num_orders, delay_seconds, ...)`, with the
behaviour of the gateways towards the `i`-th order given by `envs i`. -/
def process_orders_sequential (envs : Nat → Env) (mode : B2BMode)
    (max_retries retry_delay num_orders _delay_seconds : Nat) (clock0 : Nat) : SeqOut :=
  seqGo envs mode max_retries retry_delay 0 num_orders clock0

/-- Scheduling state of one order task of `process_orders_concurrent`:
waiting on the semaphore, mid-execution (holding a permit), or finished with
its run result. -/
inductive TaskState where
  | waiting
  | running
  | finished (r : RunResult)
deriving DecidableEq, Repr

/-- State of `process_orders_concurrent`'s cooperative scheduler: the
semaphore's free-permit counter and each submitted task's state, in
submission order. -/
structure PoolState where
  permits : Nat
  tasks : List TaskState
deriving DecidableEq, Repr

/-- Initial state: `asyncio.Semaphore(max_concurrent)` and all `num_orders`
tasks submitted and waiting. -/
def poolInit (max_concurrent num_orders : Nat) : PoolState :=
  ⟨max_concurrent, List.replicate num_orders .waiting⟩

/-- Small-step semantics of `process_with_semaphore` under the cooperative
scheduler: a waiting task may acquire a free permit and start running; a
running task may finish (releasing its permit) with its run's result
`f i`. -/
inductive PoolStep (f : Nat → RunResult) : PoolState → PoolState → Prop
  | acquire (σ : PoolState) (i : Nat) (hw : σ.tasks.get? i = some .waiting)
      (hp : 0 < σ.permits) :
      PoolStep f σ ⟨σ.permits - 1, σ.tasks.set i .running⟩
  | release (σ : PoolState) (i : Nat) (hr : σ.tasks.get? i = some .running) :
      PoolStep f σ ⟨σ.permits + 1, σ.tasks.set i (.finished (f i))⟩

/-- States reachable by `process_orders_concurrent(num_orders,
max_concurrent, ...)` whose task bodies produce results `f`. -/
def PoolReachable (f : Nat → RunResult) (max_concurrent num_orders : Nat)
    (σ : PoolState) : Prop :=
  Relation.ReflTransGen (PoolStep f) (poolInit max_concurrent num_orders) σ

def isRunning : TaskState → Bool
  | .running => true
  | _ => false

def isFinishedT : TaskState → Bool
  | .finished _ => true
  | _ => false

def taskResult : TaskState → Option RunResult
  | .finished r => some r
  | _ => none

/-- Number of runs simultaneously mid-execution (holding a permit). -/
def runningCount (σ : PoolState) : Nat := σ.tasks.countP isRunning

/-- `asyncio.gather(*tasks)`: returns the results in task-list (submission)
order once every task has reached a terminal state, and not before. -/
def gatherResults (σ : PoolState) : Option (List RunResult) :=
  if σ.tasks.all isFinishedT then some (σ.tasks.filterMap taskResult) else none

/-! ## Lemmas about the polling retry loop -/

theorem pollGo_retry (order_id : Nat) (r : Nat → PollResponse) (N b : Nat) :
    ∀ (t j fuel : Nat), j + fuel = N → t < fuel →
      (∀ i, j ≤ i → i < j + t → retryableB (r i) = true) →
      r (j + t) = .http 200 b →
      pollGo order_id r N j fuel = ⟨.ok (some b), t + 1, t⟩ := by
  intro t
  induction t with
  | zero =>
      intro j fuel _hjN hfuel _hretry hsucc
      obtain ⟨f, rfl⟩ : ∃ f, fuel = f + 1 := ⟨fuel - 1, by omega⟩
      simp only [Nat.add_zero] at hsucc
      simp [pollGo, hsucc]
  | succ t ih =>
      intro j fuel hjN hfuel hretry hsucc
      obtain ⟨f, rfl⟩ : ∃ f, fuel = f + 1 := ⟨fuel - 1, by omega⟩
      have hj : retryableB (r j) = true := hretry j (Nat.le_refl j) (by omega)
      have hguard : j < N - 1 := by omega
      have hrec : pollGo order_id r N (j + 1) f = ⟨.ok (some b), t + 1, t⟩ := by
        refine ih (j + 1) f (by omega) (by omega)
          (fun i h1 h2 => hretry i (by omega) (by omega)) ?_
        have : j + 1 + t = j + (t + 1) := by omega
        rw [this]; exact hsucc
      rcases hr : r j with ⟨s, body⟩ | m
      · rw [hr] at hj
        simp only [retryableB, is404, isTransportFailB, Bool.or_eq_true, beq_iff_eq,
          decide_eq_true_eq] at hj
        have hs200 : s ≠ 200 := by rcases hj with h | h <;> omega
        by_cases h404 : s = 404
        · simp [pollGo, hr, hs200, h404, hguard, hrec]
        · have hrange : 400 ≤ s ∧ s < 600 := by rcases hj with h | h <;> omega
          simp [pollGo, hr, hs200, h404, hrange, hguard, hrec]
      · simp [pollGo, hr, hguard, hrec]

theorem pollGo_exhaust (order_id : Nat) (r : Nat → PollResponse) (N : Nat) :
    ∀ (fuel j : Nat), j + fuel = N → 0 < fuel →
      (∀ i, j ≤ i → i < N → retryableB (r i) = true) →
      pollGo order_id r N j fuel =
        ⟨.error (exhaustMsg (r (N - 1)) order_id N), fuel, fuel - 1⟩ := by
  intro fuel
  induction fuel with
  | zero => intro j _ h; omega
  | succ f ih =>
      intro j hjN _hpos hretry
      have hj : retryableB (r j) = true := hretry j (Nat.le_refl j) (by omega)
      by_cases hf : f = 0
      · subst hf
        have hjguard : ¬ (j < N - 1) := by omega
        have hjlast : j = N - 1 := by omega
        rcases hr : r j with ⟨s, body⟩ | m
        · rw [hr] at hj
          simp only [retryableB, is404, isTransportFailB, Bool.or_eq_true, beq_iff_eq,
            decide_eq_true_eq] at hj
          have hs200 : s ≠ 200 := by rcases hj with h | h <;> omega
          by_cases h404 : s = 404
          · simp [pollGo, hr, hs200, h404, hjguard, exhaustMsg, ← hjlast, hr]
          · have hrange : 400 ≤ s ∧ s < 600 := by rcases hj with h | h <;> omega
            simp [pollGo, hr, hs200, h404, hrange, hjguard, exhaustMsg, ← hjlast, hr]
        · simp [pollGo, hr, hjguard, exhaustMsg, ← hjlast, hr]
      · have hguard : j < N - 1 := by omega
        have hrec := ih (j + 1) (by omega) (by omega)
          (fun i h1 h2 => hretry i (by omega) h2)
        rcases hr : r j with ⟨s, body⟩ | m
        · rw [hr] at hj
          simp only [retryableB, is404, isTransportFailB, Bool.or_eq_true, beq_iff_eq,
            decide_eq_true_eq] at hj
          have hs200 : s ≠ 200 := by rcases hj with h | h <;> omega
          by_cases h404 : s = 404
          · simp [pollGo, hr, hs200, h404, hguard, hrec]
            omega
          · have hrange : 400 ≤ s ∧ s < 600 := by rcases hj with h | h <;> omega
            simp [pollGo, hr, hs200, h404, hrange, hguard, hrec]
            omega
        · simp [pollGo, hr, hguard, hrec]
          omega

theorem pollGo_fallthrough (order_id : Nat) (r : Nat → PollResponse) (N : Nat) :
    ∀ (fuel j : Nat),
      (∀ i, j ≤ i → i < j + fuel → fallsThroughB (r i) = true) →
      pollGo order_id r N j fuel = ⟨.ok none, fuel, 0⟩ := by
  intro fuel
  induction fuel with
  | zero => intro j _; simp [pollGo]
  | succ f ih =>
      intro j hfall
      have hj : fallsThroughB (r j) = true := hfall j (Nat.le_refl j) (by omega)
      rcases hr : r j with ⟨s, body⟩ | m
      · rw [hr] at hj
        simp only [fallsThroughB, decide_eq_true_eq] at hj
        obtain ⟨hs200, hs404, hsrange⟩ := hj
        have hrec := ih (j + 1) (fun i h1 h2 => hfall i (by omega) (by omega))
        simp [pollGo, hr, hs200, hs404, hsrange, hrec]
      · rw [hr] at hj; simp [fallsThroughB] at hj

/-! ## Lemmas about the orchestrator -/

theorem tryStep_error {α β : Type} (name : String) (m : String)
    (k : α → OrchState → Except String β × OrchState) (s : OrchState) :
    tryStep name (.error m) k s = (.error m, stepStart name s) := rfl

theorem tryStep_ok {α β : Type} (name : String) (a : α)
    (k : α → OrchState → Except String β × OrchState) (s : OrchState) :
    tryStep name (.ok a) k s = k a (stepEnd name (stepStart name s)) := rfl

/-- Projection of the body's outcome onto the data that does not depend on
the clock: the raised message, or the returned order id. -/
def exCore : Except String (Nat × Option Summary) → Except String Nat
  | .error m => .error m
  | .ok (oid, _) => .ok oid

/-- Clock-free characterization of which exception (if any) reaches the
orchestrator boundary, and of the returned order id: the first failing
gateway call in step order decides the run. -/
def coreRun (env : Env) (mode : B2BMode) (max_retries delay : Nat) :
    Except String Nat :=
  env.create_cart.bind fun _ =>
  (env.get_cart.bind fun _ => env.post_consignments).bind fun _ =>
  env.update_shipping_option.bind fun _ =>
  env.add_billing_address.bind fun _ =>
  env.create_order.bind fun orderId =>
  env.update_order_status.bind fun _ =>
  (eslAct env mode orderId max_retries delay).bind fun b2b =>
  (match b2b with
   | none => Except.error attributeErrMsg
   | some _ => Except.ok ()).bind fun _ =>
  env.update_b2b_order.bind fun _ =>
  (verify_storefront_order env.token_present env.verification).bind fun _ =>
  Except.ok orderId

theorem runBody_exCore (env : Env) (mode : B2BMode) (N d : Nat) (s : OrchState) :
    exCore (runBody env mode N d s).1 = coreRun env mode N d := by
  unfold runBody coreRun
  rcases h1 : env.create_cart with m | _cart
  · simp [h1, tryStep_error, exCore, Except.bind]
  simp only [h1, tryStep_ok, Except.bind]
  rcases h2 : env.get_cart with m | _li
  · simp [h2, tryStep_error, exCore, Except.bind]
  simp only [h2, Except.bind]
  rcases h3 : env.post_consignments with m | _cons
  · simp [h3, tryStep_error, exCore, Except.bind]
  simp only [h3, tryStep_ok, Except.bind]
  rcases h4 : env.update_shipping_option with m | _u
  · simp [h4, tryStep_error, exCore, Except.bind]
  simp only [h4, tryStep_ok, Except.bind]
  rcases h5 : env.add_billing_address with m | _u
  · simp [h5, tryStep_error, exCore, Except.bind]
  simp only [h5, tryStep_ok, Except.bind]
  rcases h6 : env.create_order with m | orderId
  · simp [h6, tryStep_error, exCore, Except.bind]
  simp only [h6, tryStep_ok, Except.bind]
  unfold orderTail
  rcases h7 : env.update_order_status with m | _u
  · simp [h7, tryStep_error, exCore, Except.bind]
  simp only [h7, tryStep_ok, Except.bind]
  rcases h8 : eslAct env mode orderId N d with m | b2b
  · simp [h8, tryStep_error, exCore, Except.bind]
  simp only [h8, tryStep_ok, Except.bind]
  unfold erpTail
  rcases b2b with _ | b2bId
  · simp [send_to_erp, exCore, Except.bind]
  simp only [send_to_erp, Except.bind]
  rcases h9 : env.update_b2b_order with m | _u
  · simp [h9, tryStep_error, exCore, Except.bind]
  simp only [h9, tryStep_ok, Except.bind]
  unfold verifyTail
  rcases h10 : verify_storefront_order env.token_present env.verification with m | vr
  · simp [h10, tryStep_error, exCore, Except.bind]
  simp [h10, tryStep_ok, exCore, Except.bind]

theorem saved_stepStart (name : String) (s : OrchState) :
    (stepStart name s).saved = s.saved := rfl

theorem saved_stepEnd (name : String) (s : OrchState) :
    (stepEnd name s).saved = s.saved := rfl

theorem runBody_error_saved (env : Env) (mode : B2BMode) (N d : Nat) (s : OrchState)
    (m : String) (h : (runBody env mode N d s).1 = .error m) :
    (runBody env mode N d s).2.saved = s.saved := by
  unfold runBody at h ⊢
  rcases h1 : env.create_cart with m1 | _cart
  · simp [h1, tryStep_error, saved_stepStart]
  simp only [h1, tryStep_ok] at h ⊢
  rcases h2 : env.get_cart with m2 | _li
  · simp [h2, tryStep_error, saved_stepStart, saved_stepEnd, Except.bind]
  simp only [h2, Except.bind] at h ⊢
  rcases h3 : env.post_consignments with m3 | _cons
  · simp [h3, tryStep_error, saved_stepStart, saved_stepEnd]
  simp only [h3, tryStep_ok] at h ⊢
  rcases h4 : env.update_shipping_option with m4 | _u
  · simp [h4, tryStep_error, saved_stepStart, saved_stepEnd]
  simp only [h4, tryStep_ok] at h ⊢
  rcases h5 : env.add_billing_address with m5 | _u
  · simp [h5, tryStep_error, saved_stepStart, saved_stepEnd]
  simp only [h5, tryStep_ok] at h ⊢
  rcases h6 : env.create_order with m6 | orderId
  · simp [h6, tryStep_error, saved_stepStart, saved_stepEnd]
  simp only [h6, tryStep_ok] at h ⊢
  unfold orderTail at h ⊢
  rcases h7 : env.update_order_status with m7 | _u
  · simp [h7, tryStep_error, saved_stepStart, saved_stepEnd]
  simp only [h7, tryStep_ok] at h ⊢
  rcases h8 : eslAct env mode orderId N d with m8 | b2b
  · simp [h8, tryStep_error, saved_stepStart, saved_stepEnd]
  simp only [h8, tryStep_ok] at h ⊢
  unfold erpTail at h ⊢
  rcases b2b with _ | b2bId
  · simp [send_to_erp, saved_stepStart, saved_stepEnd]
  simp only [send_to_erp] at h ⊢
  rcases h9 : env.update_b2b_order with m9 | _u
  · simp [h9, tryStep_error, saved_stepStart, saved_stepEnd]
  simp only [h9, tryStep_ok] at h ⊢
  unfold verifyTail at h ⊢
  rcases h10 : verify_storefront_order env.token_present env.verification with m10 | vr
  · simp [h10, tryStep_error, saved_stepStart, saved_stepEnd]
  simp only [h10, tryStep_ok] at h
  simp at h

/-- The clock-independent face of a run result: its success flag, order id
and error message. -/
def RunResult.core (r : RunResult) : Bool × Option Nat × Option String :=
  (r.success, r.order_id, r.error)

def exceptToCore : Except String Nat → Bool × Option Nat × Option String
  | .error m => (false, none, some m)
  | .ok oid => (true, some oid, none)

theorem process_single_order_core (env : Env) (mode : B2BMode) (N d : Nat)
    (s : OrchState) :
    ((process_single_order env mode N d s).1).core =
      exceptToCore (coreRun env mode N d) := by
  have hx := runBody_exCore env mode N d s
  unfold process_single_order
  rcases hb : runBody env mode N d s with ⟨res, s2⟩
  rw [hb] at hx
  rcases res with m | ⟨oid, sum⟩
  · simp [exCore] at hx
    simp [RunResult.core, ← hx, exceptToCore]
  · simp [exCore] at hx
    simp [RunResult.core, ← hx, exceptToCore]

theorem process_single_order_of_error (env : Env) (mode : B2BMode) (N d : Nat)
    (s0 : OrchState) (m : String) (h : coreRun env mode N d = .error m) :
    (process_single_order env mode N d s0).1 = ⟨false, none, none, some m⟩ ∧
      (process_single_order env mode N d s0).2.saved = s0.saved := by
  have hx := runBody_exCore env mode N d s0
  rw [h] at hx
  have hres : (runBody env mode N d s0).1 = .error m := by
    rcases hr : (runBody env mode N d s0).1 with m2 | ⟨oid, sum⟩
    · rw [hr] at hx; simpa [exCore] using hx
    · rw [hr] at hx; simp [exCore] at hx
  have hsaved := runBody_error_saved env mode N d s0 m hres
  constructor
  · unfold process_single_order
    rcases hb : runBody env mode N d s0 with ⟨res, s2⟩
    rw [hb] at hres
    subst hres
    rfl
  · unfold process_single_order
    rcases hb : runBody env mode N d s0 with ⟨res, s2⟩
    rw [hb] at hres hsaved
    subst hres
    simpa using hsaved

/-! ## The report JSON never embeds a success-false payload -/

theorem steps_json_no_success_false (l : List (String × StepTiming)) :
    fieldsHaveSuccessFalse (l.map (fun p => (p.1, StepTiming.toJson p.2))) = false := by
  induction l with
  | nil => rfl
  | cons p rest ih =>
      rcases p with ⟨name, st⟩
      rcases st with ⟨st1, st2, st3⟩
      rcases st2 with _ | e <;> rcases st3 with _ | du <;>
        · simp [fieldsHaveSuccessFalse, jsonHasSuccessFalse, StepTiming.toJson, isJFalse]
          simpa [StepTiming.toJson] using ih

theorem summary_json_no_success_false (σ : Summary) :
    jsonHasSuccessFalse (Summary.toJson σ) = false := by
  rcases σ with ⟨fs, fe, td, oid, steps⟩
  rcases oid with _ | n <;>
    simp [Summary.toJson, jsonHasSuccessFalse, fieldsHaveSuccessFalse, isJFalse,
      steps_json_no_success_false]

theorem success_result_json_no_success_false (oid : Nat) (sum : Option Summary) :
    jsonHasSuccessFalse (RunResult.toJson ⟨true, some oid, sum, none⟩) = false := by
  rcases sum with _ | σ
  · simp [RunResult.toJson, jsonHasSuccessFalse, fieldsHaveSuccessFalse, isJFalse]
  · rcases σ with ⟨fs, fe, td, oid2, steps⟩
    rcases oid2 with _ | n <;>
      simp [RunResult.toJson, Summary.toJson, jsonHasSuccessFalse, fieldsHaveSuccessFalse,
        isJFalse, steps_json_no_success_false]

/-! ## Dict lemmas -/

theorem dictFind_dictSet_ne {α : Type} (l : List (String × α)) (k k2 : String) (v : α)
    (h : k2 ≠ k) : dictFind k2 (dictSet k v l) = dictFind k2 l := by
  have h2 : k ≠ k2 := Ne.symm h
  induction l with
  | nil => simp [dictSet, dictFind, h2]
  | cons p rest ih =>
      rcases p with ⟨k3, v3⟩
      by_cases h3 : k3 = k
      · subst h3
        simp [dictSet, dictFind, h2, ih]
      · simp only [dictSet, if_neg h3]
        by_cases h4 : k3 = k2 <;> simp [dictFind, h4, ih]

/-! ## Aggregator lemmas -/

theorem calcDurations_spec (data : List JVal) (l : List ℚ)
    (h : calcDurations data = some l) :
    l = data.map readTotalDuration ∧ l.length = data.length := by
  induction data generalizing l with
  | nil =>
      simp [calcDurations] at h
      subst h
      simp
  | cons d rest ih =>
      simp only [calcDurations, Option.bind_eq_bind, Option.bind_eq_some] at h
      obtain ⟨v, hv, q, hq, qs, hqs, hl⟩ := h
      obtain ⟨h1, h2⟩ := ih qs hqs
      have hl2 : q :: qs = l := by simpa using hl
      subst hl2
      constructor
      · simp [readTotalDuration, hv, hq, h1]
      · simp [h2]

/-! ## Lemmas about the sequential runner -/

theorem seqGo_spec (envs : Nat → Env) (mode : B2BMode) (N d : Nat) :
    ∀ (rem i c : Nat),
      (seqGo envs mode N d i rem c).results.length = rem ∧
      (seqGo envs mode N d i rem c).sleeps = rem - 1 ∧
      ∀ j (h : j < (seqGo envs mode N d i rem c).results.length),
        ((seqGo envs mode N d i rem c).results.get ⟨j, h⟩).core =
          exceptToCore (coreRun (envs (i + j)) mode N d) := by
  intro rem
  induction rem with
  | zero =>
      intro i c
      refine ⟨rfl, rfl, ?_⟩
      intro j h
      simp [seqGo] at h
  | succ rem ih =>
      intro i c
      obtain ⟨ihlen, ihsleeps, ihget⟩ :=
        ih (i + 1)
          (process_single_order (envs i) mode N d (freshOrch c)).2.clock
      have hlen1 : (seqGo envs mode N d i (rem + 1) c).results.length = rem + 1 := by
        simp [seqGo, ihlen]
      refine ⟨hlen1, ?_, ?_⟩
      · simp only [seqGo]
        rcases rem with _ | rem2
        · simpa using ihsleeps
        · rw [ihsleeps, if_pos (Nat.succ_pos rem2)]
          omega
      · intro j h
        rcases j with _ | j2
        · simp only [seqGo, List.get]
          exact process_single_order_core (envs i) mode N d (freshOrch c)
        · have h2 : j2 < (seqGo envs mode N d (i + 1) rem
              (process_single_order (envs i) mode N d (freshOrch c)).2.clock).results.length := by
            rw [ihlen]
            rw [hlen1] at h
            omega
          have hres := ihget j2 h2
          have hidx : i + 1 + j2 = i + (j2 + 1) := by omega
          rw [hidx] at hres
          simp only [seqGo, List.get] at hres ⊢
          exact hres

/-! ## Lemmas about the concurrent pool -/

theorem get?_set_self {α : Type} (l : List α) :
    ∀ (i : Nat) (a : α), i < l.length → (l.set i a).get? i = some a := by
  induction l with
  | nil => intro i a h; simp at h
  | cons x rest ih =>
      intro i a h
      rcases i with _ | i2
      · rfl
      · simpa [List.set, List.get?] using ih i2 a (by simpa using h)

theorem get?_set_ne {α : Type} (l : List α) :
    ∀ (i j : Nat) (a : α), i ≠ j → (l.set i a).get? j = l.get? j := by
  induction l with
  | nil => intro i j a _; simp
  | cons x rest ih =>
      intro i j a hne
      rcases i with _ | i2
      · rcases j with _ | j2
        · exact absurd rfl hne
        · rfl
      · rcases j with _ | j2
        · rfl
        · simpa [List.set, List.get?] using ih i2 j2 a (by omega)

theorem countP_set_of_get? {α : Type} (p : α → Bool) (l : List α) :
    ∀ (i : Nat) (b a : α), l.get? i = some b →
      (l.set i a).countP p + (if p b then 1 else 0) =
        l.countP p + (if p a then 1 else 0) := by
  induction l with
  | nil => intro i b a h; simp at h
  | cons x rest ih =>
      intro i b a h
      rcases i with _ | i2
      · have hxb : x = b := by simpa using h
        subst hxb
        simp only [List.set, List.countP_cons]
        omega
      · have h2 : rest.get? i2 = some b := by simpa using h
        have := ih i2 b a h2
        simp only [List.set, List.countP_cons]
        omega

/-- Inductive invariant of the concurrent pool: the task list length is the
number of submitted orders, free permits plus mid-execution runs equal the
concurrency limit, and each finished task carries its own run's result. -/
def PoolInv (f : Nat → RunResult) (max_concurrent num_orders : Nat)
    (σ : PoolState) : Prop :=
  σ.tasks.length = num_orders ∧
  σ.permits + runningCount σ = max_concurrent ∧
  ∀ i r, σ.tasks.get? i = some (.finished r) → r = f i

theorem poolInv_init (f : Nat → RunResult) (C M : Nat) :
    PoolInv f C M (poolInit C M) := by
  refine ⟨by simp [poolInit], ?_, ?_⟩
  · have hz : ∀ n : Nat, List.countP isRunning (List.replicate n TaskState.waiting) = 0 := by
      intro n
      induction n with
      | zero => rfl
      | succ n2 ih => simp [List.replicate_succ, List.countP_cons, isRunning, ih]
    simp [poolInit, runningCount, hz]
  · intro i r h
    exfalso
    simp only [poolInit] at h
    have hmem := List.get?_mem h
    have := List.eq_of_mem_replicate hmem
    cases this

theorem poolInv_step (f : Nat → RunResult) (C M : Nat) (σ σ2 : PoolState)
    (hinv : PoolInv f C M σ) (hstep : PoolStep f σ σ2) : PoolInv f C M σ2 := by
  obtain ⟨hlen, hcount, hfin⟩ := hinv
  cases hstep with
  | acquire i hw hp =>
      have hcnt := countP_set_of_get? isRunning σ.tasks i TaskState.waiting
        TaskState.running hw
      refine ⟨by simpa [List.length_set] using hlen, ?_, ?_⟩
      · simp only [runningCount] at hcount ⊢
        simp [isRunning] at hcnt
        omega
      · intro j r hj
        by_cases hij : i = j
        · subst hij
          have hlt : i < σ.tasks.length := by
            rcases hlt : σ.tasks.get? i with _ | t
            · rw [hlt] at hw; cases hw
            · exact (List.get?_eq_some.mp hlt).1
          simp only at hj
          rw [get?_set_self σ.tasks i TaskState.running hlt] at hj
          cases hj
        · simp only at hj
          rw [get?_set_ne σ.tasks i j TaskState.running hij] at hj
          exact hfin j r hj
  | release i hr =>
      have hcnt := countP_set_of_get? isRunning σ.tasks i TaskState.running
        (TaskState.finished (f i)) hr
      refine ⟨by simpa [List.length_set] using hlen, ?_, ?_⟩
      · simp only [runningCount] at hcount ⊢
        simp [isRunning] at hcnt
        omega
      · intro j r hj
        by_cases hij : i = j
        · subst hij
          have hlt : i < σ.tasks.length := by
            rcases hlt : σ.tasks.get? i with _ | t
            · rw [hlt] at hr; cases hr
            · exact (List.get?_eq_some.mp hlt).1
          simp only at hj
          rw [get?_set_self σ.tasks i (TaskState.finished (f i)) hlt] at hj
          cases hj
          rfl
        · simp only at hj
          rw [get?_set_ne σ.tasks i j (TaskState.finished (f i)) hij] at hj
          exact hfin j r hj

theorem poolInv_reachable (f : Nat → RunResult) (C M : Nat) (σ : PoolState)
    (h : PoolReachable f C M σ) : PoolInv f C M σ := by
  induction h with
  | refl => exact poolInv_init f C M
  | tail _hsteps hstep ih => exact poolInv_step f C M _ _ ih hstep

theorem filterMap_taskResult_of_finished (f : Nat → RunResult) :
    ∀ (l : List TaskState),
      (∀ j r, l.get? j = some (.finished r) → r = f j) →
      (∀ t ∈ l, isFinishedT t = true) →
      l.filterMap taskResult = (List.range l.length).map f := by
  intro l
  induction l generalizing f with
  | nil => intro _ _; rfl
  | cons t rest ih =>
      intro hget hfin
      obtain ⟨r, rfl⟩ : ∃ r, t = .finished r := by
        have := hfin t (List.mem_cons_self t rest)
        cases t with
        | finished r => exact ⟨r, rfl⟩
        | waiting => simp [isFinishedT] at this
        | running => simp [isFinishedT] at this
      have hr0 : r = f 0 := hget 0 r rfl
      subst hr0
      have hrest := ih (fun n => f (n + 1))
        (fun j r2 hj => hget (j + 1) r2 (by simpa using hj))
        (fun t2 ht2 => hfin t2 (List.mem_cons_of_mem _ ht2))
      simp only [List.filterMap_cons, taskResult, List.length_cons, hrest,
        List.range_succ_eq_map, List.map_cons, List.map_map]
      rfl

/-! ## Claim theorems: polling (C3, C4, C10) -/

/-- The re-raised transport error of the final attempt. -/
def transportMsg : PollResponse → String
  | .netError m => m
  | .http s _ => httpErrMsg s

theorem exhaustMsg_of_404 (p : PollResponse) (oid N : Nat) (h : is404 p = true) :
    exhaustMsg p oid N = notFoundMsg oid N := by
  cases p with
  | http s b =>
      simp only [is404, beq_iff_eq] at h
      simp [exhaustMsg, h]
  | netError m => simp [is404] at h

theorem exhaustMsg_of_transport (p : PollResponse) (oid N : Nat)
    (h : isTransportFailB p = true) : exhaustMsg p oid N = transportMsg p := by
  cases p with
  | http s b =>
      simp only [isTransportFailB, decide_eq_true_eq] at h
      simp [exhaustMsg, transportMsg, h.2]
  | netError m => rfl

theorem fallsThrough_of_2xxNot200 (p : PollResponse) (h : is2xxNot200 p = true) :
    fallsThroughB p = true := by
  cases p with
  | http s b =>
      simp only [is2xxNot200, decide_eq_true_eq] at h
      simp only [fallsThroughB, decide_eq_true_eq]
      omega
  | netError m => simp [is2xxNot200] at h

/-- Claim C3: polling that sees "not found" on attempts `1..k-1` and success
on attempt `k ≤ N` makes exactly `k` attempts with `k-1` sleeps of
`delay_seconds` between consecutive attempts and returns the order data;
polling that sees "not found" on all `N` attempts makes exactly `N` attempts
with `N-1` sleeps and raises the "not found after N attempts" exception. -/
theorem c3_poll_retry_counts
    (oid N d k b : Nat) (r r2 : Nat → PollResponse)
    (hN : 1 ≤ N) (hk : 1 ≤ k) (hkN : k ≤ N)
    (hnf : ∀ i, i < k - 1 → is404 (r i) = true)
    (hsucc : r (k - 1) = .http 200 b)
    (hall : ∀ i, i < N → is404 (r2 i) = true) :
    poll_b2b_order oid r N d = ⟨.ok (some b), k, k - 1⟩ ∧
    poll_b2b_order oid r2 N d = ⟨.error (notFoundMsg oid N), N, N - 1⟩ := by
  constructor
  · have h := pollGo_retry oid r N b (k - 1) 0 N (by omega) (by omega)
      (fun i _h1 h2 => by
        have h3 : i < k - 1 := by omega
        simp [retryableB, hnf i h3])
      (by simpa using hsucc)
    have hk1 : k - 1 + 1 = k := by omega
    rw [hk1] at h
    exact h
  · have h := pollGo_exhaust oid r2 N N 0 (by omega) (by omega)
      (fun i _h1 h2 => by simp [retryableB, hall i h2])
    have hmsg : exhaustMsg (r2 (N - 1)) oid N = notFoundMsg oid N :=
      exhaustMsg_of_404 _ oid N (hall (N - 1) (by omega))
    rw [hmsg] at h
    exact h

theorem c3_witness :
    (1 : Nat) ≤ 3 ∧
    poll_b2b_order 7 (fun i => if i = 0 then .http 404 0 else .http 200 42) 3 5 =
      ⟨.ok (some 42), 2, 1⟩ ∧
    poll_b2b_order 7 (fun _ => .http 404 0) 3 5 =
      ⟨.error (notFoundMsg 7 3), 3, 2⟩ := by
  have h := c3_poll_retry_counts 7 3 5 2 42
    (fun i => if i = 0 then .http 404 0 else .http 200 42) (fun _ => .http 404 0)
    (by omega) (by omega) (by omega)
    (fun i hi => by
      have h0 : i = 0 := by omega
      subst h0
      rfl)
    rfl
    (fun i _hi => rfl)
  exact ⟨by omega, h.1, h.2⟩

/-- Claim C4 counterexample: a 304 response is a non-2xx status other than
404, yet the poll makes both attempts with no sleep in between and the call
returns `None` rather than re-raising a transport error. -/
theorem c4_counterexample :
    poll_b2b_order 9 (fun _ => .http 304 0) 2 5 = ⟨.ok none, 2, 0⟩ ∧
    ¬(200 ≤ 304 ∧ 304 ≤ 299) ∧ (304 : Nat) ≠ 404 := by
  refine ⟨rfl, by omega, by omega⟩

/-- Claim C4 (amended): a transport-level failure — a network error or an
HTTP status 400-599 other than 404 — consumes the same attempt counter as
the "not found" case, with the same per-gap sleep (first conjunct: any mix of
retryable outcomes before a success at attempt `k` gives `k` attempts and
`k-1` sleeps); if all `maxAttempts` attempts fail that way, the last
transport error is re-raised (second and third conjuncts).  Statuses below
400 other than 200/404 are not failures: `raise_for_status` passes them
silently (see the counterexample). -/
theorem c4_transport_retry_budget
    (oid N d k b : Nat) (r r2 : Nat → PollResponse)
    (hN : 1 ≤ N) (hk : 1 ≤ k) (hkN : k ≤ N)
    (hmix : ∀ i, i < k - 1 → retryableB (r i) = true)
    (hsucc : r (k - 1) = .http 200 b)
    (hfail : ∀ i, i < N → isTransportFailB (r2 i) = true) :
    poll_b2b_order oid r N d = ⟨.ok (some b), k, k - 1⟩ ∧
    poll_b2b_order oid r2 N d =
      ⟨.error (transportMsg (r2 (N - 1))), N, N - 1⟩ := by
  constructor
  · have h := pollGo_retry oid r N b (k - 1) 0 N (by omega) (by omega)
      (fun i _h1 h2 => hmix i (by omega))
      (by simpa using hsucc)
    have hk1 : k - 1 + 1 = k := by omega
    rw [hk1] at h
    exact h
  · have h := pollGo_exhaust oid r2 N N 0 (by omega) (by omega)
      (fun i _h1 h2 => by simp [retryableB, hfail i h2])
    have hmsg : exhaustMsg (r2 (N - 1)) oid N = transportMsg (r2 (N - 1)) :=
      exhaustMsg_of_transport _ oid N (hfail (N - 1) (by omega))
    rw [hmsg] at h
    exact h

theorem c4_witness :
    (1 : Nat) ≤ 3 ∧
    poll_b2b_order 9 (fun i => if i = 0 then .netError "conn reset" else .http 200 5) 3 2 =
      ⟨.ok (some 5), 2, 1⟩ ∧
    poll_b2b_order 9 (fun _ => .http 503 0) 3 2 =
      ⟨.error (transportMsg (.http 503 0)), 3, 2⟩ := by
  have h := c4_transport_retry_budget 9 3 2 2 5
    (fun i => if i = 0 then .netError "conn reset" else .http 200 5)
    (fun _ => .http 503 0)
    (by omega) (by omega) (by omega)
    (fun i hi => by
      have h0 : i = 0 := by omega
      subst h0
      rfl)
    rfl
    (fun i _hi => rfl)
  exact ⟨by omega, h.1, h.2⟩

/-- Claim C10 (implicit): if every one of `poll_b2b_order`'s attempts receives
a 2xx response other than 200, no iteration returns, raises or sleeps —
control falls off the end of the retry loop, the function returns `None`
(`N` attempts, zero sleeps), and the orchestrator hands exactly that `None`
to the `erp_processing` step's `send_to_erp` call. -/
theorem c10_fall_off_loop_returns_none
    (env : Env) (N d oid cart li : Nat) (cons : Nat × Nat) (s0 : OrchState)
    (h1 : env.create_cart = .ok cart) (h2 : env.get_cart = .ok li)
    (h3 : env.post_consignments = .ok cons)
    (h4 : env.update_shipping_option = .ok ())
    (h5 : env.add_billing_address = .ok ())
    (h6 : env.create_order = .ok oid)
    (h7 : env.update_order_status = .ok ())
    (hr : ∀ i, i < N → is2xxNot200 (env.poll i) = true) :
    poll_b2b_order oid env.poll N d = ⟨.ok none, N, 0⟩ ∧
    (process_single_order env .alt N d s0).2.erpInput = some none := by
  have hpoll : poll_b2b_order oid env.poll N d = ⟨.ok none, N, 0⟩ := by
    unfold poll_b2b_order
    exact pollGo_fallthrough oid env.poll N N 0
      (fun i _hle hlt => fallsThrough_of_2xxNot200 _ (hr i (by omega)))
  refine ⟨hpoll, ?_⟩
  have hesl : eslAct env .alt oid N d = .ok none := by
    simp [eslAct, hpoll]
  unfold process_single_order runBody orderTail erpTail
  simp [h1, h2, h3, h4, h5, h6, h7, hesl, tryStep_ok, Except.bind, send_to_erp,
    stepStart, stepEnd]

theorem c10_witness :
    ((∀ i, i < 3 → is2xxNot200 ((fun _ => PollResponse.http 204 0) i) = true) ∧
      poll_b2b_order 7 (fun _ => PollResponse.http 204 0) 3 5 = ⟨.ok none, 3, 0⟩) ∧
    (process_single_order
      { create_cart := .ok 1, get_cart := .ok 2, post_consignments := .ok (3, 4),
        update_shipping_option := .ok (), add_billing_address := .ok (),
        create_order := .ok 7, update_order_status := .ok (),
        get_order_details := .ok 19, create_b2b_order := .ok 7,
        poll := fun _ => PollResponse.http 204 0, update_b2b_order := .ok (),
        token_present := true, verification := .ok [] }
      .alt 3 5 (freshOrch 0)).2.erpInput = some none := by
  have h := c10_fall_off_loop_returns_none
    { create_cart := .ok 1, get_cart := .ok 2, post_consignments := .ok (3, 4),
      update_shipping_option := .ok (), add_billing_address := .ok (),
      create_order := .ok 7, update_order_status := .ok (),
      get_order_details := .ok 19, create_b2b_order := .ok 7,
      poll := fun _ => PollResponse.http 204 0, update_b2b_order := .ok (),
      token_present := true, verification := .ok [] }
    3 5 7 1 2 (3, 4) (freshOrch 0) rfl rfl rfl rfl rfl rfl rfl
    (fun i _hi => rfl)
  exact ⟨⟨fun i _hi => rfl, h.1⟩, h.2⟩

/-! ## Claim theorems: orchestrator failure path (C1), verification miss (C5),
timing tracker (C6) -/

/-- A gateway environment in which every call succeeds. -/
def envOk : Env :=
  { create_cart := .ok 1, get_cart := .ok 2, post_consignments := .ok (3, 4),
    update_shipping_option := .ok (), add_billing_address := .ok (),
    create_order := .ok 7, update_order_status := .ok (),
    get_order_details := .ok 19, create_b2b_order := .ok 7,
    poll := fun _ => .netError "unused", update_b2b_order := .ok (),
    token_present := true, verification := .ok [⟨"c", "u", "ACME"⟩] }

/-- `envOk` with the order-status update raising. -/
def envFailStatus : Env := { envOk with update_order_status := .error "boom" }

/-- `envOk` with the storefront GraphQL query returning zero edges. -/
def envVerMiss : Env := { envOk with verification := .ok [] }

/-- Claim C1 (amended): when a gateway call raises during the step sequence,
the orchestrator aborts the remaining steps, catches the exception at its
boundary and returns `{'success': False, 'error': str(e)}` — but it persists
NO report file: the failure path returns without calling `end_flow` or
`save_report`, so the set of written reports is unchanged. -/
theorem c1_failure_aborts_and_skips_report
    (env : Env) (mode : B2BMode) (N d : Nat) (s0 : OrchState) (m : String)
    (h : coreRun env mode N d = .error m) :
    (process_single_order env mode N d s0).1 = ⟨false, none, none, some m⟩ ∧
    (process_single_order env mode N d s0).2.saved = s0.saved :=
  process_single_order_of_error env mode N d s0 m h

theorem c1_witness :
    coreRun envFailStatus .default 3 1 = .error "boom" ∧
    (process_single_order envFailStatus .default 3 1 (freshOrch 0)).1 =
      ⟨false, none, none, some "boom"⟩ ∧
    (process_single_order envFailStatus .default 3 1 (freshOrch 0)).2.saved =
      (freshOrch 0).saved := by
  have h := c1_failure_aborts_and_skips_report envFailStatus .default 3 1
    (freshOrch 0) "boom" rfl
  exact ⟨rfl, h.1, h.2⟩

/-- Claim C1 counterexample: with `update_order_status` raising "boom", the
run aborts after the first six steps (the failing step stays open), returns
success = false with the message — and persists ZERO report files, not
exactly one. -/
theorem c1_counterexample :
    (process_single_order envFailStatus .default 3 1 (freshOrch 0)).1.success = false ∧
    ((process_single_order envFailStatus .default 3 1 (freshOrch 0)).2.tracker.steps.map
        Prod.fst) =
      ["create_cart", "add_shipping_address", "update_shipping_option",
       "add_billing_address", "create_order", "update_order_status"] ∧
    ((process_single_order envFailStatus .default 3 1 (freshOrch 0)).2.tracker.steps.map
        (fun p => p.2.stop)) = [some 2, some 4, some 6, some 8, some 10, none] ∧
    (process_single_order envFailStatus .default 3 1 (freshOrch 0)).2.saved.length = 0 :=
  ⟨rfl, rfl, rfl, rfl⟩

theorem verifyPayload_saveReportS (s : OrchState) :
    (saveReportS s).verifyPayload = s.verifyPayload := by
  unfold saveReportS
  cases s.tracker.save_report <;> rfl

/-- Claim C5 (amended): when the storefront GraphQL query returns zero edges,
`verify_storefront_order` returns the soft payload `success := false`, the
FlowRun still terminates with `success := true` — but the payload is only
logged: the dict `process_single_order` returns (keys success, order_id,
summary) nowhere contains a "success": false entry, so the payload is not
embedded in the run's result. -/
theorem c5_soft_verification_miss
    (env : Env) (N d oid cart li cust b2bId : Nat) (cons : Nat × Nat)
    (s0 : OrchState)
    (h1 : env.create_cart = .ok cart) (h2 : env.get_cart = .ok li)
    (h3 : env.post_consignments = .ok cons)
    (h4 : env.update_shipping_option = .ok ())
    (h5 : env.add_billing_address = .ok ())
    (h6 : env.create_order = .ok oid)
    (h7 : env.update_order_status = .ok ())
    (h8 : env.get_order_details = .ok cust)
    (h9 : env.create_b2b_order = .ok b2bId)
    (h10 : env.update_b2b_order = .ok ())
    (htok : env.token_present = true)
    (hver : env.verification = .ok []) :
    (process_single_order env .default N d s0).1.success = true ∧
    (process_single_order env .default N d s0).2.verifyPayload =
      some ⟨false, "Order not found in B2B Storefront API", none⟩ ∧
    jsonHasSuccessFalse ((process_single_order env .default N d s0).1).toJson =
      false := by
  have hverRes : verify_storefront_order env.token_present env.verification =
      .ok ⟨false, "Order not found in B2B Storefront API", none⟩ := by
    rw [htok, hver]
    rfl
  have hesl : eslAct env .default oid N d = .ok (some b2bId) := by
    simp [eslAct, h8, h9, Except.bind, Except.map]
  unfold process_single_order runBody orderTail erpTail verifyTail
  simp only [h1, h2, h3, h4, h5, h6, h7, h10, hesl, hverRes, tryStep_ok, Except.bind,
    send_to_erp]
  refine ⟨?_, ?_, ?_⟩
  · trivial
  · rw [verifyPayload_saveReportS]
  · exact success_result_json_no_success_false oid _

theorem c5_witness :
    envVerMiss.verification = .ok [] ∧
    (process_single_order envVerMiss .default 3 1 (freshOrch 0)).1.success = true ∧
    (process_single_order envVerMiss .default 3 1 (freshOrch 0)).2.verifyPayload =
      some ⟨false, "Order not found in B2B Storefront API", none⟩ ∧
    jsonHasSuccessFalse
      ((process_single_order envVerMiss .default 3 1 (freshOrch 0)).1).toJson =
      false := by
  have h := c5_soft_verification_miss envVerMiss 3 1 7 1 2 19 7 (3, 4) (freshOrch 0)
    rfl rfl rfl rfl rfl rfl rfl rfl rfl rfl rfl rfl
  exact ⟨rfl, h.1, h.2.1, h.2.2⟩

/-- Claim C5 counterexample: with zero matching edges the soft payload
`success := false` is produced and the FlowRun succeeds, yet the dict that
`process_single_order` returns nowhere contains a "success": false entry —
the verification payload is not embedded in the run's result as the claim
states. -/
theorem c5_counterexample :
    (process_single_order envVerMiss .default 3 1 (freshOrch 0)).2.verifyPayload =
      some ⟨false, "Order not found in B2B Storefront API", none⟩ ∧
    (process_single_order envVerMiss .default 3 1 (freshOrch 0)).1.success = true ∧
    jsonHasSuccessFalse
      ((process_single_order envVerMiss .default 3 1 (freshOrch 0)).1).toJson =
      false :=
  ⟨rfl, rfl, rfl⟩

/-- Claim C6 counterexample: starting step "b" while step "a" is open does
not close "a", and `end_flow` closes nothing: after `end_flow`, the record of
"a" still has a missing end time and duration. -/
theorem c6_counterexample :
    ((((TimingTracker.init.start_flow 0).start_step "a" 1).start_step "b" 2).end_flow
        3).steps =
      [("a", ⟨1, none, none⟩), ("b", ⟨2, none, none⟩)] := rfl

/-- Claim C6 (amended): `start_step` creates or overwrites only the named
step's record and leaves every other entry — including a still-open previous
step — exactly as it was; `end_flow` records the flow end instant and leaves
the `steps` map unchanged.  Hence a started-but-never-ended step still has a
missing end time after `end_flow`. -/
theorem c6_no_implicit_close :
    (∀ (t : TimingTracker) (name other : String) (now : Nat), other ≠ name →
        dictFind other (t.start_step name now).steps = dictFind other t.steps) ∧
    (∀ (t : TimingTracker) (now : Nat), (t.end_flow now).steps = t.steps) := by
  constructor
  · intro t name other now h
    exact dictFind_dictSet_ne t.steps name other _ h
  · intro t now
    rfl

theorem c6_witness :
    (("a" : String) ≠ "b") ∧
    dictFind "a"
        (((TimingTracker.init.start_flow 0).start_step "a" 1).start_step "b" 2).steps =
      dictFind "a" ((TimingTracker.init.start_flow 0).start_step "a" 1).steps :=
  ⟨by decide,
    c6_no_implicit_close.1 ((TimingTracker.init.start_flow 0).start_step "a" 1)
      "b" "a" 2 (by decide)⟩

/-! ## Claim theorems: aggregator average (C7), sequential batch (C8),
concurrency bound (C9), report round-trip (C2) -/

/-- Claim C7: whenever `calculate_metrics` completes on loaded reports, it
counts all of them, classifies the rest of the count as failed, and computes
`average_duration` as the sum of the `total_duration` value read from EVERY
loaded run — failed runs included — divided by the number of loaded runs. -/
theorem c7_average_over_all_runs
    (data : List JVal) (m : Metrics) (h : calculate_metrics data = some m) :
    m.total_orders = data.length ∧
    m.failed_orders = m.total_orders - m.successful_orders ∧
    m.average_duration = (data.map readTotalDuration).sum / (data.length : ℚ) := by
  unfold calculate_metrics at h
  by_cases hemp : data.isEmpty
  · rw [if_pos hemp] at h
    cases h
  rw [if_neg hemp] at h
  simp only [Option.bind_eq_bind, Option.bind_eq_some] at h
  obtain ⟨succ, hsucc, h⟩ := h
  obtain ⟨durs, hdurs, h⟩ := h
  obtain ⟨aggs, _haggs, h⟩ := h
  obtain ⟨ks, _hks, h⟩ := h
  obtain ⟨hmap, hlen⟩ := calcDurations_spec data durs hdurs
  have hm : m =
      { total_orders := data.length, successful_orders := succ,
        failed_orders := data.length - succ, total_duration := durs.sum,
        average_duration := durs.sum / (durs.length : ℚ),
        min_duration := minListQ durs, max_duration := maxListQ durs,
        step_metrics := finishAggs aggs } := by
    have h2 := h
    simp only [Option.pure_def, Option.some.injEq] at h2
    exact h2.symm
  have hmT : m.total_orders = data.length := by rw [hm]
  have hmS : m.successful_orders = succ := by rw [hm]
  have hmF : m.failed_orders = data.length - succ := by rw [hm]
  have hmA : m.average_duration = durs.sum / (durs.length : ℚ) := by rw [hm]
  refine ⟨hmT, ?_, ?_⟩
  · rw [hmF, hmT, hmS]
  · rw [hmA, hlen, hmap]

def reportA : JVal :=
  .obj [("flow_start", .str "1"), ("total_duration", .num 10)]

def reportB : JVal :=
  .obj [("flow_start", .str "2"), ("total_duration", .num 30),
        ("success", .boolean false)]

def metricsAB : Metrics :=
  { total_orders := 2, successful_orders := 1, failed_orders := 1,
    total_duration := 40, average_duration := 20, min_duration := 10,
    max_duration := 30, step_metrics := [] }

theorem c7_witness :
    calculate_metrics [reportA, reportB] = some metricsAB ∧
    metricsAB.average_duration =
      ([reportA, reportB].map readTotalDuration).sum / (([reportA, reportB].length : Nat) : ℚ) := by
  have hs : calcSuccessCount [reportA, reportB] = some 1 := by decide
  have hd : calcDurations [reportA, reportB] = some [10, 30] := by decide
  have ha : calcStepAggs [] [reportA, reportB] = some [] := by decide
  have hk : calcSortKeys [reportA, reportB] = some [1, 2] := by decide
  have hW : calculate_metrics [reportA, reportB] = some metricsAB := by
    simp only [calculate_metrics, hs, hd, ha, hk]
    norm_num [metricsAB, minListQ, maxListQ, min_def, max_def, finishAggs]
  have h := c7_average_over_all_runs [reportA, reportB] metricsAB hW
  exact ⟨hW, h.2.2⟩

/-- Claim C8: a sequential batch of `M ≥ 1` orders executes the runs one at a
time in submission order — the `j`-th result is the outcome of the `j`-th
order's own run, whatever the other runs did, so one run's failure never
prevents the remaining runs from executing — returns a result list of length
`M`, and sleeps the inter-order delay exactly `M - 1` times (after each run
except the last). -/
theorem c8_sequential_batch
    (envs : Nat → Env) (mode : B2BMode) (N d delay M c0 : Nat) (_hM : 1 ≤ M) :
    (process_orders_sequential envs mode N d M delay c0).results.length = M ∧
    (process_orders_sequential envs mode N d M delay c0).sleeps = M - 1 ∧
    ∀ j (h : j < (process_orders_sequential envs mode N d M delay c0).results.length),
      ((process_orders_sequential envs mode N d M delay c0).results.get ⟨j, h⟩).core =
        ((process_single_order (envs j) mode N d (freshOrch 0)).1).core := by
  obtain ⟨hlen, hsleeps, hget⟩ := seqGo_spec envs mode N d M 0 c0
  refine ⟨hlen, hsleeps, ?_⟩
  intro j h
  have hg := hget j h
  rw [process_single_order_core (envs j) mode N d (freshOrch 0)]
  simpa using hg

theorem c8_witness :
    (1 : Nat) ≤ 3 ∧
    (process_orders_sequential (fun i => if i = 1 then envFailStatus else envOk)
        .default 3 1 3 2 0).results.length = 3 ∧
    (process_orders_sequential (fun i => if i = 1 then envFailStatus else envOk)
        .default 3 1 3 2 0).sleeps = 2 ∧
    ∀ j (h : j < (process_orders_sequential
          (fun i => if i = 1 then envFailStatus else envOk)
          .default 3 1 3 2 0).results.length),
      ((process_orders_sequential (fun i => if i = 1 then envFailStatus else envOk)
          .default 3 1 3 2 0).results.get ⟨j, h⟩).core =
        ((process_single_order ((fun i => if i = 1 then envFailStatus else envOk) j)
            .default 3 1 (freshOrch 0)).1).core := by
  have h := c8_sequential_batch (fun i => if i = 1 then envFailStatus else envOk)
    .default 3 1 2 3 0 (by omega)
  exact ⟨by omega, h.1, h.2.1, h.2.2⟩

/-- Claim C9: in every scheduler state the concurrent runner can reach, at
most `max_concurrent` runs hold a semaphore permit (are mid-execution) at
once, and `asyncio.gather` produces the result list only in states where all
`num_orders` tasks are terminal — yielding exactly each task's own result, in
submission order. -/
theorem c9_concurrency_bound
    (f : Nat → RunResult) (C M : Nat) (σ : PoolState)
    (h : PoolReachable f C M σ) :
    runningCount σ ≤ C ∧
    ∀ rs, gatherResults σ = some rs → rs = (List.range M).map f := by
  obtain ⟨hlen, hcount, hfin⟩ := poolInv_reachable f C M σ h
  constructor
  · omega
  · intro rs hrs
    unfold gatherResults at hrs
    by_cases hall : σ.tasks.all isFinishedT
    · rw [if_pos hall] at hrs
      have hrs2 : σ.tasks.filterMap taskResult = rs := by
        simpa using hrs
      rw [← hrs2, ← hlen]
      exact filterMap_taskResult_of_finished f σ.tasks hfin
        (by simpa [List.all_eq_true] using hall)
    · rw [if_neg hall] at hrs
      cases hrs

def resultW : RunResult := ⟨true, some 1, none, none⟩

theorem c9_witness :
    PoolReachable (fun _ => resultW) 1 1 ⟨1, [TaskState.finished resultW]⟩ ∧
    runningCount ⟨1, [TaskState.finished resultW]⟩ ≤ 1 ∧
    ∀ rs, gatherResults ⟨1, [TaskState.finished resultW]⟩ = some rs →
      rs = (List.range 1).map (fun _ => resultW) := by
  have s1 : PoolStep (fun _ => resultW) (poolInit 1 1) ⟨0, [TaskState.running]⟩ :=
    PoolStep.acquire _ 0 rfl (by decide)
  have s2 : PoolStep (fun _ => resultW) ⟨0, [TaskState.running]⟩
      ⟨1, [TaskState.finished resultW]⟩ :=
    PoolStep.release _ 0 rfl
  have hreach : PoolReachable (fun _ => resultW) 1 1 ⟨1, [TaskState.finished resultW]⟩ :=
    Relation.ReflTransGen.tail (Relation.ReflTransGen.tail Relation.ReflTransGen.refl s1) s2
  have h := c9_concurrency_bound (fun _ => resultW) 1 1 _ hreach
  exact ⟨hreach, h.1, h.2⟩

/-! ## Claim C2: the report round-trip drops every duration (code bug) -/

def trackerC2 : TimingTracker :=
  ((((TimingTracker.init.start_flow 0).start_step "create_cart" 1).end_step
      "create_cart" 3).set_order_id 7).end_flow 10

def summaryC2 : Summary :=
  { flow_start := 0, flow_end := 10, total_duration_seconds := 10,
    order_id := some 7, steps := [("create_cart", ⟨1, some 3, some 2⟩)] }

/-- Claim C2 (code-bug evidence): a completed run's tracker persists a report
whose total duration is 10 and whose `create_cart` step lasted 2, yet feeding
that very file back through `load_timing_data` and `calculate_metrics` yields
total duration 0, average duration 0 and a `create_cart` aggregate of 0: the
aggregator reads the keys `total_duration` and `duration`, which the report
writer (emitting `total_duration_seconds` / `duration_seconds`) never
produces, so every duration comes back as the 0 default instead of
round-tripping. -/
theorem c2_key_mismatch_drops_durations :
    trackerC2.save_report = some ("order_7_0.json", summaryC2) ∧
    (calculate_metrics (load_timing_data
        [("order_7_0.json", some summaryC2.toJson)])).map
        (fun m => (m.total_duration, m.average_duration,
          (dictFind "create_cart" m.step_metrics).map StepAgg.total_duration)) =
      some (0, 0, some 0) ∧
    summaryC2.total_duration_seconds = 10 ∧
    dictFind "create_cart" summaryC2.steps = some ⟨1, some 3, some 2⟩ := by
  refine ⟨by decide, ?_, rfl, by decide⟩
  have hs : calcSuccessCount [summaryC2.toJson] = some 1 := by decide
  have hd : calcDurations [summaryC2.toJson] = some [0] := by decide
  have hk : calcSortKeys [summaryC2.toJson] = some [0] := by decide
  have ha : calcStepAggs [] [summaryC2.toJson] =
      some [("create_cart", ⟨0, 0, some 0, 0, 1⟩)] := by
    simp [calcStepAggs, foldSteps, pyGet, dictFind, upsertAgg, bumpAgg, stepAggInit,
      summaryC2, Summary.toJson, StepTiming.toJson, floatOfJ, max_self]
  have hload : load_timing_data [("order_7_0.json", some summaryC2.toJson)] =
      [summaryC2.toJson] := rfl
  rw [hload]
  simp only [calculate_metrics, hs, hd, hk, ha]
  norm_num [finishAggs, minListQ, maxListQ, dictFind]

end B2BSync
